import Mathlib

/-!
Shallow embedding of the `http-image-processor` web service
(`src/src/main.rs`): an axum HTTP server with a single POST route
`/img-watermark` that parses a multipart form (`file`, `scale`, `posx`,
`posy`, `text`), decodes the uploaded image, draws the text at `(posx,
posy)` with a bundled font, re-encodes as JPEG and returns an HTML page.

Modelling conventions:
* Bytes are `Nat` values (the values of Rust `u8`); byte buffers are
  `List Nat`.
* The third-party image / font library calls (`image`, `imageproc`,
  `rusttype`) are parameters of the embedding, collected in an `ImageLib`
  structure; the behaviour the specification attributes to them is stated
  as a `Prop`-valued contract `ImageLibSpec`.  The repository's own code —
  parsing, validation, control flow, defaults, the exact arguments of each
  library call — is embedded concretely.
* Rust `f32` values are modelled by `F32`: NaN, signed infinity, or a
  finite value carried as an exact rational.  Rounding of finite decimal
  literals to the nearest representable `f32` is not modelled (no claim
  distinguishes values closer than one ulp), but overflow of the decimal
  value to ±∞ at the `f32` round-to-nearest-even boundary `2^128 - 2^103`
  is, because it distinguishes a 32-bit parse from a 64-bit parse.
-/

namespace ImgProc

/-- Model of Rust `f32` values as far as the service observes them:
NaN, a signed infinity, or a finite value carried as an exact rational. -/
inductive F32 where
  | nan : F32
  | inf : Bool → F32
  | finite : ℚ → F32
deriving DecidableEq, Repr

/-- `rusttype::Scale`: a 2-d glyph scale with `f32` components
(`pub struct Scale { pub x: f32, pub y: f32 }`). -/
structure Scale where
  x : F32
  y : F32
deriving DecidableEq, Repr

/-- `image::Rgba<u8>`: one pixel, channel values are `u8`. -/
structure Rgba where
  r : Nat
  g : Nat
  b : Nat
  a : Nat
deriving DecidableEq, Repr

/-! ### Rust standard-library numeric parsing

`watermark_handler` calls `str::parse` at the `posx`/`posy` fields (target
type `u32`, declared at main.rs:130-131) and at the `scale` field (target
type `f32`, forced by `rusttype::Scale`'s fields at main.rs:183-186).
The two parsers below embed the documented `FromStr` grammars. -/

/-- Numeric value of a list of ASCII digits, most significant first. -/
def digitsToNat (cs : List Char) : Nat :=
  cs.foldl (fun n c => n * 10 + (c.toNat - '0'.toNat)) 0

/-- Rust `str::parse::<u32>`: an optional leading `+`, then one or more
ASCII digits, and the value must fit in 32 bits.  A leading `-`, an empty
string, any non-digit character, or overflow is an error. -/
def parseU32 (s : String) : Option Nat :=
  let cs := match s.data with
    | '+' :: rest => rest
    | l => l
  if cs ≠ [] ∧ cs.all Char.isDigit then
    if digitsToNat cs < 2 ^ 32 then some (digitsToNat cs) else none
  else none

/-- Strip one optional sign character; `true` means negative. -/
def splitSign : List Char → Bool × List Char
  | '-' :: rest => (true, rest)
  | '+' :: rest => (false, rest)
  | l => (false, l)

/-- Optional exponent suffix of a Rust float literal: empty, or
`(e|E) sign? digit+`.  Applies the exponent to `base`. -/
def applyExponent (base : ℚ) : List Char → Option ℚ
  | [] => some base
  | c :: rest =>
    if c = 'e' ∨ c = 'E' then
      let (eneg, rest2) := splitSign rest
      let ed := rest2.takeWhile Char.isDigit
      if ed = [] ∨ rest2.dropWhile Char.isDigit ≠ [] then none
      else some (if eneg then base / 10 ^ digitsToNat ed else base * 10 ^ digitsToNat ed)
    else none

/-- The `Number` production of Rust's float grammar:
`digit+ | digit+ '.' digit* | digit* '.' digit+`, then an optional
exponent; yields the exact rational value of the literal. -/
def parseDecimal (cs : List Char) : Option ℚ :=
  let ip := cs.takeWhile Char.isDigit
  let rest := cs.dropWhile Char.isDigit
  match rest with
  | '.' :: rest2 =>
    let fp := rest2.takeWhile Char.isDigit
    let rest3 := rest2.dropWhile Char.isDigit
    if ip = [] ∧ fp = [] then none
    else applyExponent ((digitsToNat ip : ℚ) + (digitsToNat fp : ℚ) / 10 ^ fp.length) rest3
  | _ =>
    if ip = [] then none
    else applyExponent (digitsToNat ip : ℚ) rest

/-- Decimal values at or above this bound round to `+∞` under `f32`
round-to-nearest-even: the boundary is `2^128 - 2^103`, the midpoint
between the largest finite `f32` (`2^128 - 2^104`) and `2^128`. -/
def F32_OVERFLOW : ℚ := 2 ^ 128 - 2 ^ 103

/-- Classify the exact decimal value as an `f32`: values past the `f32`
range become infinities, others stay finite (carried exactly; sub-ulp
rounding is not modelled). -/
def roundF32 (neg : Bool) (q : ℚ) : F32 :=
  if F32_OVERFLOW ≤ q then F32.inf neg
  else F32.finite (if neg then -q else q)

/-- Rust `str::parse::<f32>`: optional sign, then (case-insensitively)
`inf`, `infinity`, `nan`, or a decimal `Number` with optional exponent.
Never fails on any string matching that grammar — in particular negative,
fractional, infinite and NaN inputs all parse. -/
def parseF32 (s : String) : Option F32 :=
  let (neg, cs) := splitSign s.data
  let low := cs.map Char.toLower
  if low = "inf".data ∨ low = "infinity".data then some (F32.inf neg)
  else if low = "nan".data then some F32.nan
  else match parseDecimal cs with
    | some q => some (roundF32 neg q)
    | none => none

/-- Modelled from the claim's words (C10 calls `scale` "a 64-bit float"):
the identical Rust parse grammar, classified instead at the `f64`
round-to-nearest-even overflow boundary `2^1024 - 2^971`.  Defined only
to compare the claimed 64-bit behaviour with the source's 32-bit one;
the service itself never uses it. -/
def parseF64spec (s : String) : Option F32 :=
  let (neg, cs) := splitSign s.data
  let low := cs.map Char.toLower
  if low = "inf".data ∨ low = "infinity".data then some (F32.inf neg)
  else if low = "nan".data then some F32.nan
  else match parseDecimal cs with
    | some q => some (if (2 ^ 1024 - 2 ^ 971 : ℚ) ≤ q then F32.inf neg
        else F32.finite (if neg then -q else q))
    | none => none

/-! ### Multipart form model -/

/-- One part of a multipart submission.  `bytes` is the raw content (what
`field.bytes()` returns); `text` is its text decoding (what
`field.text()` returns).  The handler reads `bytes` only for the part
named `file` and `text` for every other part it recognises, so no claim
depends on the two views being related. -/
structure Part where
  name : String
  bytes : List Nat := []
  text : String := ""
deriving DecidableEq, Repr

/-- The handler's mutable locals after the multipart loop
(main.rs:128-132): uploaded bytes, scale, positions, watermark text. -/
structure FormState where
  bytes : List Nat
  scale_num : F32
  posx : Nat
  posy : Nat
  text : String
deriving DecidableEq, Repr

/-- Initial values of the locals (main.rs:128-132): empty file bytes,
scale 18.0, positions 0, text "Blue Bird". -/
def initState : FormState :=
  { bytes := [], scale_num := F32.finite 18, posx := 0, posy := 0, text := "Blue Bird" }

/-- The three fields whose parse failure aborts the handler, one per
early-return site of the multipart loop. -/
inductive WField where
  | scale
  | posx
  | posy
deriving DecidableEq, Repr

/-- The exact error page body returned for each failing field
(main.rs:147, 156-158, 168-170). -/
def invalidMsg : WField → String
  | .scale => "invalid scale number"
  | .posx => "invalid position x number, only positive number"
  | .posy => "invalid position y number, only positive number"

/-- One iteration of the multipart loop (main.rs:133-182): dispatch on the
field name, store the parsed value, or return the validation error. -/
def stepField (st : FormState) (p : Part) : Except WField FormState :=
  if p.name = "file" then .ok { st with bytes := p.bytes }
  else if p.name = "scale" then
    match parseF32 p.text with
    | some n => .ok { st with scale_num := n }
    | none => .error .scale
  else if p.name = "posx" then
    match parseU32 p.text with
    | some n => .ok { st with posx := n }
    | none => .error .posx
  else if p.name = "posy" then
    match parseU32 p.text with
    | some n => .ok { st with posy := n }
    | none => .error .posy
  else if p.name = "text" then .ok { st with text := p.text }
  else .ok st

/-- The multipart loop from a given state: fold `stepField` over the parts
in order, propagating the first validation error (an early `return`). -/
def collectFrom (st : FormState) : List Part → Except WField FormState
  | [] => .ok st
  | p :: ps =>
    match stepField st p with
    | .ok st2 => collectFrom st2 ps
    | .error e => .error e

/-- The whole multipart loop of `watermark_handler` (main.rs:128-182). -/
def collectFields (parts : List Part) : Except WField FormState :=
  collectFrom initState parts

/-! ### Image / font library model

Decoding, text rasterisation, JPEG encoding and font parsing are performed
by the third-party crates `image`, `imageproc` and `rusttype`, which are
not part of this repository.  They are parameters of the embedding: an
`ImageLib` bundles the four entry points the service calls, and
`ImageLibSpec` states, as hypotheses, the behaviour the specification
attributes to them (dimension preservation of drawing, JPEG round-trip
dimensions, non-empty encoder output, validity of the embedded font). -/

/-- A decoded bitmap (`image::DynamicImage`): dimensions and pixel data. -/
structure Image where
  width : Nat
  height : Nat
  pix : Nat → Nat → Rgba

/-- `image::ImageError`, as far as the service distinguishes it: a decode
failure, or the `IoError` the pipeline fabricates for a bad font
(main.rs:254-257). -/
inductive ImageError where
  | decodeError (msg : String)
  | ioError (msg : String)
deriving DecidableEq, Repr

/-- A parsed font (`rusttype::Font`), identified by its source bytes. -/
structure FontT where
  bytes : List Nat
deriving DecidableEq, Repr

/-- The four third-party entry points `draw_watermark_on_image` calls.
`decode` covers `ImageReader::new(..).with_guessed_format()?.decode()`
(the `?` on `with_guessed_format` cannot fire on an in-memory cursor, so
its error is folded into `decode`). -/
structure ImageLib where
  /-- Format sniffing plus decode of a byte buffer. -/
  decode : List Nat → Except ImageError Image
  /-- `imageproc::drawing::draw_text_mut` as a pure function of the target
  bitmap: arguments are colour, x, y, scale, font, text, bitmap. -/
  draw_text_mut : Rgba → Nat → Nat → Scale → FontT → String → Image → Image
  /-- `DynamicImage::write_to(&mut out, ImageFormat::Jpeg)`. -/
  writeJpeg : Image → Except String (List Nat)
  /-- `rusttype::Font::try_from_bytes`. -/
  font_try_from_bytes : List Nat → Option FontT

/-- Modelled from the spec: the bytes of the embedded font file
`../fonts/Urbanist/static/Urbanist-Black.ttf`, compiled into the binary at
main.rs:249.  The font file is not among the available sources, so its
contents are opaque; only its identity reaches the library calls. -/
def font_data : List Nat := []

/-- Outcome of `draw_watermark_on_image`: the `Result` value, or a panic
(the `.expect("writing to memory failed")` at main.rs:274). -/
inductive PipeResult where
  | ok (bytes : List Nat)
  | error (e : ImageError)
  | panic (msg : String)
deriving DecidableEq, Repr

/-- Shallow embedding of `draw_watermark_on_image` (main.rs:233-277):
decode the bytes, parse the embedded font, draw `text` at `(posx, posy)`
in fully transparent black with equal x/y scale, JPEG-encode the result. -/
def draw_watermark_on_image (lib : ImageLib) (img : List Nat) (scale : Scale)
    (text : String) (posx posy : Nat) : PipeResult :=
  match lib.decode img with
  | .error err => .error err
  | .ok dyna_img =>
    match lib.font_try_from_bytes font_data with
    | none => .error (.ioError "font error")
    | some font =>
      let color : Rgba := ⟨0, 0, 0, 0⟩
      let drawn := lib.draw_text_mut color posx posy scale font text dyna_img
      match lib.writeJpeg drawn with
      | .ok out_img => .ok out_img
      | .error _ => .panic "writing to memory failed"

/-! ### The HTTP handler -/

/-- The distinct responses `watermark_handler` can produce, one per return
site: a validation error page (`error_page`, main.rs:147/156/168), the
unsupported-image page for a pipeline error (main.rs:192), the success
page embedding the base64 JPEG (main.rs:198-214), or a panic. -/
inductive Response where
  | errorPage (msg : String)
  | unsupported
  | success (html : String)
  | panic (msg : String)
deriving DecidableEq, Repr

/-- The base64 alphabet used by `base64::encode`. -/
def B64_ALPHABET : String :=
  "ABCDEFGHIJKLMNOPQRSTUVWXYZabcdefghijklmnopqrstuvwxyz0123456789+/"

/-- Character for one 6-bit group. -/
def b64char (n : Nat) : Char := B64_ALPHABET.data.getD n 'A'

/-- Standard base64 with padding, three input bytes per four characters. -/
def base64chars : List Nat → List Char
  | b1 :: b2 :: b3 :: rest =>
    let n := b1 * 65536 + b2 * 256 + b3
    b64char (n / 262144) :: b64char (n / 4096 % 64) :: b64char (n / 64 % 64) ::
      b64char (n % 64) :: base64chars rest
  | [b1, b2] =>
    let n := b1 * 65536 + b2 * 256
    [b64char (n / 262144), b64char (n / 4096 % 64), b64char (n / 64 % 64), '=']
  | [b1] =>
    let n := b1 * 65536
    [b64char (n / 262144), b64char (n / 4096 % 64), '=', '=']
  | [] => []

/-- `base64::encode` (main.rs:196). -/
def base64encode (bs : List Nat) : String := ⟨base64chars bs⟩

/-- The success page template (main.rs:198-212) with the base64 image
spliced in. -/
def success_html (base64_img : String) : String :=
  "\n        <!doctype html>\n        <html>\n            <head><title>image processor</title></head>\n            <body>\n                <h3>Output:</h3>\n                <div style=\"border: 1px solid #eee; width: min-content; padding: 5px;\">\n                <img src=\"data:image/jpg;base64, " ++
    base64_img ++ "\"/>\n                </div>\n            </body>\n        </html>\n    "

/-- Shallow embedding of `watermark_handler` (main.rs:125-215) past the
content-length check: run the multipart loop, then the pipeline with
`Scale { x: scale_num, y: scale_num }`, and render the result. -/
def watermark_handler (lib : ImageLib) (parts : List Part) : Response :=
  match collectFields parts with
  | .error f => .errorPage (invalidMsg f)
  | .ok st =>
    let scale : Scale := ⟨st.scale_num, st.scale_num⟩
    match draw_watermark_on_image lib st.bytes scale st.text st.posx st.posy with
    | .error _ => .unsupported
    | .panic m => .panic m
    | .ok watermarked_img => .success (success_html (base64encode watermarked_img))

/-- The `ContentLengthLimit` bound on the POST body (main.rs:126):
250 MiB. -/
def CONTENT_LENGTH_LIMIT : Nat := 250 * 1024 * 1024

/-- Outcome of the routed POST: rejected by the extractor, or handled. -/
inductive RouteResult where
  | payloadTooLarge
  | handled (r : Response)
deriving DecidableEq, Repr

/-- POST `/img-watermark` as routed: `ContentLengthLimit` compares the
request's content length against the bound before the body is consumed;
the handler runs only within the bound. -/
def img_watermark_post (lib : ImageLib) (contentLength : Nat)
    (parts : List Part) : RouteResult :=
  if CONTENT_LENGTH_LIMIT < contentLength then .payloadTooLarge
  else .handled (watermark_handler lib parts)

/-! ### Library contract and a concrete instance

`ImageLibSpec` is modelled from the spec (§4.1 steps 3-6, §8): drawing
mutates pixels but not dimensions; JPEG encoding of a valid bitmap
succeeds, is non-empty, and decodes back to the same dimensions; the
compiled-in font parses.  `toyLib` is a small concrete instance showing
the contract is satisfiable, used to evaluate the theorems on closed
inputs. -/

/-- The library behaviour the specification relies on. -/
structure ImageLibSpec (lib : ImageLib) : Prop where
  draw_width : ∀ c x y s f t i, (lib.draw_text_mut c x y s f t i).width = i.width
  draw_height : ∀ c x y s f t i, (lib.draw_text_mut c x y s f t i).height = i.height
  encode_ok : ∀ i, ∃ out, lib.writeJpeg i = .ok out
  encode_nonempty : ∀ i out, lib.writeJpeg i = .ok out → out ≠ []
  encode_decode_dims : ∀ i out, lib.writeJpeg i = .ok out →
    ∃ j, lib.decode out = .ok j ∧ j.width = i.width ∧ j.height = i.height
  font_ok : ∃ f, lib.font_try_from_bytes font_data = some f

/-- A concrete `ImageLib`: a buffer decodes iff it has at least two bytes,
read as width and height; drawing is the identity; encoding writes the
dimensions back followed by a marker byte. -/
def toyLib : ImageLib where
  decode := fun bs =>
    match bs with
    | [] => .error (.decodeError "empty input")
    | [_] => .error (.decodeError "truncated")
    | w :: h :: _ => .ok ⟨w, h, fun _ _ => ⟨0, 0, 0, 255⟩⟩
  draw_text_mut := fun _ _ _ _ _ _ i => i
  writeJpeg := fun i => .ok [i.width, i.height, 217]
  font_try_from_bytes := fun bs => some ⟨bs⟩

/-- `toyLib` meets the library contract. -/
theorem toyLib_spec : ImageLibSpec toyLib where
  draw_width := fun _ _ _ _ _ _ _ => rfl
  draw_height := fun _ _ _ _ _ _ _ => rfl
  encode_ok := fun i => ⟨[i.width, i.height, 217], rfl⟩
  encode_nonempty := fun i out h => by
    cases h; simp
  encode_decode_dims := fun i out h => by
    cases h; exact ⟨_, rfl, rfl, rfl⟩
  font_ok := ⟨⟨font_data⟩, rfl⟩

/-- `toyLib` with a font that fails to parse. -/
def toyLibNoFont : ImageLib :=
  { toyLib with font_try_from_bytes := fun _ => none }

/-- Instrumentation of `draw_watermark_on_image`'s control flow as run by
`watermark_handler`: how many times `Font::try_from_bytes` executes while
one request is served.  It mirrors the pipeline exactly: a validation
error or a decode error returns before the font load at main.rs:250; on
every other path the font is parsed exactly once, inside the request. -/
def fontParsesPerRequest (lib : ImageLib) (parts : List Part) : Nat :=
  match collectFields parts with
  | .error _ => 0
  | .ok st =>
    match lib.decode st.bytes with
    | .error _ => 0
    | .ok _ => 1

/-! ### Helper lemmas on the multipart loop -/

/-- Which validation error, if any, a single part triggers when its turn
comes in the loop: the part is named `scale`/`posx`/`posy` and its value
fails the corresponding parse. -/
def partFailure (p : Part) : Option WField :=
  if p.name = "scale" then
    match parseF32 p.text with
    | some _ => none
    | none => some .scale
  else if p.name = "posx" then
    match parseU32 p.text with
    | some _ => none
    | none => some .posx
  else if p.name = "posy" then
    match parseU32 p.text with
    | some _ => none
    | none => some .posy
  else none

theorem partFailure_of_error {st : FormState} {p : Part} {e : WField}
    (h : stepField st p = .error e) : partFailure p = some e := by
  unfold stepField at h
  unfold partFailure
  rcases hf : parseF32 p.text with _ | a <;>
    rcases hx : parseU32 p.text with _ | b <;>
      simp only [hf, hx] at * <;>
        split_ifs at h ⊢ <;> simp_all

theorem partFailure_of_ok {st st2 : FormState} {p : Part}
    (h : stepField st p = .ok st2) : partFailure p = none := by
  unfold stepField at h
  unfold partFailure
  rcases hf : parseF32 p.text with _ | a <;>
    rcases hx : parseU32 p.text with _ | b <;>
      simp only [hf, hx] at * <;>
        split_ifs at h ⊢ <;> simp_all

theorem collectFrom_cons (st : FormState) (p : Part) (ps : List Part) :
    collectFrom st (p :: ps) =
      match stepField st p with
      | .ok st2 => collectFrom st2 ps
      | .error e => .error e := rfl

/-- If some part among `scale`/`posx`/`posy` fails its parse, the loop
stops at the first such part and reports its field. -/
theorem collectFrom_error_of_fail (parts : List Part) :
    ∀ st : FormState, (∃ p ∈ parts, partFailure p ≠ none) →
      ∃ f, collectFrom st parts = .error f ∧ ∃ p ∈ parts, partFailure p = some f := by
  induction parts with
  | nil => intro st h; simp at h
  | cons p ps ih =>
    intro st h
    cases hs : stepField st p with
    | error e =>
      refine ⟨e, ?_, p, List.mem_cons_self p ps, partFailure_of_error hs⟩
      simp [collectFrom_cons, hs]
    | ok st2 =>
      have hp0 : partFailure p = none := partFailure_of_ok hs
      have hex : ∃ q ∈ ps, partFailure q ≠ none := by
        rcases h with ⟨q, hq, hqf⟩
        rcases List.mem_cons.mp hq with rfl | hq2
        · exact absurd hp0 hqf
        · exact ⟨q, hq2, hqf⟩
      rcases ih st2 hex with ⟨f, hcf, q, hq, hqf⟩
      refine ⟨f, ?_, q, List.mem_cons_of_mem _ hq, hqf⟩
      simp [collectFrom_cons, hs, hcf]

/-- If no part fails its parse, the loop completes. -/
theorem collectFrom_ok_of_no_fail (parts : List Part) :
    ∀ st : FormState, (∀ p ∈ parts, partFailure p = none) →
      ∃ st2, collectFrom st parts = .ok st2 := by
  induction parts with
  | nil => intro st _; exact ⟨st, rfl⟩
  | cons p ps ih =>
    intro st h
    cases hs : stepField st p with
    | error e =>
      have h1 := partFailure_of_error hs
      have h0 := h p (List.mem_cons_self p ps)
      rw [h0] at h1; cases h1
    | ok st2 =>
      rcases ih st2 (fun q hq => h q (List.mem_cons_of_mem _ hq)) with ⟨st3, hc⟩
      exact ⟨st3, by simp [collectFrom_cons, hs, hc]⟩

/-- A loop iteration only writes the state component named by the part. -/
theorem stepField_preserve {st st2 : FormState} {p : Part}
    (h : stepField st p = .ok st2) :
    (p.name ≠ "text" → st2.text = st.text)
    ∧ (p.name ≠ "posx" → st2.posx = st.posx)
    ∧ (p.name ≠ "posy" → st2.posy = st.posy)
    ∧ (p.name ≠ "scale" → st2.scale_num = st.scale_num) := by
  unfold stepField at h
  rcases hf : parseF32 p.text with _ | a <;>
    rcases hx : parseU32 p.text with _ | b <;>
      simp only [hf, hx] at h <;>
        split_ifs at h <;> simp_all <;> (subst h; simp)

/-- Absent fields keep their initial values across the whole loop. -/
theorem collectFrom_preserve (parts : List Part) :
    ∀ st st2 : FormState, collectFrom st parts = .ok st2 →
      ((∀ p ∈ parts, p.name ≠ "text") → st2.text = st.text)
      ∧ ((∀ p ∈ parts, p.name ≠ "posx") → st2.posx = st.posx)
      ∧ ((∀ p ∈ parts, p.name ≠ "posy") → st2.posy = st.posy)
      ∧ ((∀ p ∈ parts, p.name ≠ "scale") → st2.scale_num = st.scale_num) := by
  induction parts with
  | nil =>
    intro st st2 h
    cases h
    simp
  | cons p ps ih =>
    intro st st2 h
    rw [collectFrom_cons] at h
    cases hs : stepField st p with
    | error e => rw [hs] at h; cases h
    | ok stm =>
      rw [hs] at h
      have hstep := stepField_preserve hs
      have hrest := ih stm st2 h
      refine ⟨fun ha => ?_, fun ha => ?_, fun ha => ?_, fun ha => ?_⟩
      · rw [hrest.1 fun q hq => ha q (List.mem_cons_of_mem _ hq),
          hstep.1 (ha p (List.mem_cons_self p ps))]
      · rw [hrest.2.1 fun q hq => ha q (List.mem_cons_of_mem _ hq),
          hstep.2.1 (ha p (List.mem_cons_self p ps))]
      · rw [hrest.2.2.1 fun q hq => ha q (List.mem_cons_of_mem _ hq),
          hstep.2.2.1 (ha p (List.mem_cons_self p ps))]
      · rw [hrest.2.2.2 fun q hq => ha q (List.mem_cons_of_mem _ hq),
          hstep.2.2.2 (ha p (List.mem_cons_self p ps))]

/-- A value with a leading minus sign never parses as `u32`. -/
theorem parseU32_neg (v : String) : parseU32 ("-" ++ v) = none := by
  have hd : ("-" ++ v).data = '-' :: v.data := rfl
  simp +decide [parseU32, hd]

/-! ### Claim theorems -/

/-- C1: whenever some `scale`/`posx`/`posy` part's value fails its numeric
parse, the handler returns the validation error page naming a field that
failed (the page body is `invalidMsg f`, which spells out the field), and
the image decode step is never reached — witnessed by the response being
independent of the image library, hence of the uploaded bytes' decoding. -/
theorem claim_C1_validation_error_before_decode (lib : ImageLib) (parts : List Part)
    (h : ∃ p ∈ parts, partFailure p ≠ none) :
    ∃ f, watermark_handler lib parts = .errorPage (invalidMsg f)
      ∧ (∃ p ∈ parts, partFailure p = some f)
      ∧ ∀ lib2 : ImageLib, watermark_handler lib2 parts = watermark_handler lib parts := by
  rcases collectFrom_error_of_fail parts initState h with ⟨f, hc, hp⟩
  refine ⟨f, ?_, hp, fun lib2 => ?_⟩ <;>
    simp [watermark_handler, collectFields, hc]

/-- Witness for C1 at the spec's concrete scenario: `posx` value `"abc"`. -/
theorem claim_C1_witness :
    ∃ f, watermark_handler toyLib [{ name := "posx", text := "abc" }] =
        .errorPage (invalidMsg f)
      ∧ (∃ p ∈ [({ name := "posx", text := "abc" } : Part)], partFailure p = some f)
      ∧ ∀ lib2 : ImageLib,
          watermark_handler lib2 [{ name := "posx", text := "abc" }] =
            watermark_handler toyLib [{ name := "posx", text := "abc" }] :=
  claim_C1_validation_error_before_decode toyLib _
    ⟨{ name := "posx", text := "abc" }, by simp, by decide⟩

/-- C3: for any library meeting its contract, any decodable input with
non-empty text yields non-empty JPEG bytes that decode to the source
image's dimensions. -/
theorem claim_C3_pipeline_preserves_dimensions (lib : ImageLib) (hlib : ImageLibSpec lib)
    (input : List Nat) (scale : Scale) (text : String) (posx posy : Nat) (i : Image)
    (hdec : lib.decode input = .ok i) (htext : text ≠ "") :
    ∃ out j, draw_watermark_on_image lib input scale text posx posy = .ok out
      ∧ out ≠ [] ∧ lib.decode out = .ok j
      ∧ j.width = i.width ∧ j.height = i.height := by
  rcases hlib.font_ok with ⟨f, hf⟩
  rcases hlib.encode_ok (lib.draw_text_mut ⟨0, 0, 0, 0⟩ posx posy scale f text i)
    with ⟨out, hout⟩
  rcases hlib.encode_decode_dims _ out hout with ⟨j, hj, hjw, hjh⟩
  refine ⟨out, j, ?_, hlib.encode_nonempty _ out hout, hj, ?_, ?_⟩
  · simp [draw_watermark_on_image, hdec, hf, hout]
  · rw [hjw, hlib.draw_width]
  · rw [hjh, hlib.draw_height]

/-- Witness for C3 on the concrete library instance: a decodable 3×4
input, scale 18, text "Blue Bird", position (10, 10). -/
theorem claim_C3_witness :
    ∃ out j, draw_watermark_on_image toyLib [3, 4]
        ⟨F32.finite 18, F32.finite 18⟩ "Blue Bird" 10 10 = .ok out
      ∧ out ≠ [] ∧ toyLib.decode out = .ok j ∧ j.width = 3 ∧ j.height = 4 :=
  claim_C3_pipeline_preserves_dimensions toyLib toyLib_spec [3, 4]
    ⟨F32.finite 18, F32.finite 18⟩ "Blue Bird" 10 10
    ⟨3, 4, fun _ _ => ⟨0, 0, 0, 255⟩⟩ rfl (by decide)

/-- C5: whenever the collected `file` bytes do not decode — in particular
the empty byte buffer left when the `file` field is omitted — the handler
returns the decode-error page (`<h1>Image type is not supported</h1>`)
and does not panic. -/
theorem claim_C5_decode_error_no_panic (lib : ImageLib) (parts : List Part)
    (st : FormState) (e : ImageError)
    (h1 : collectFields parts = .ok st) (h2 : lib.decode st.bytes = .error e) :
    watermark_handler lib parts = .unsupported
      ∧ ∀ m, watermark_handler lib parts ≠ .panic m := by
  have hmain : watermark_handler lib parts = .unsupported := by
    simp [watermark_handler, h1, draw_watermark_on_image, h2]
  exact ⟨hmain, fun m => by rw [hmain]; simp⟩

/-- Witness for C5 at the spec's concrete scenario: `file` field omitted
entirely, leaving the empty byte buffer, which fails decode. -/
theorem claim_C5_witness :
    watermark_handler toyLib [] = .unsupported :=
  (claim_C5_decode_error_no_panic toyLib [] initState (.decodeError "empty input")
    rfl rfl).1

/-- C7: the pipeline is a deterministic function of its inputs — two runs
on identical input bytes and identical parameters produce identical
output.  In the embedding the pipeline is a pure function (the source has
no randomness, time or cross-request state on this path, and the JPEG
encoder is deterministic), so equal inputs give equal bytes. -/
theorem claim_C7_pipeline_deterministic (lib : ImageLib) (img1 img2 : List Nat)
    (s1 s2 : Scale) (t1 t2 : String) (x1 x2 y1 y2 : Nat)
    (hi : img1 = img2) (hs : s1 = s2) (ht : t1 = t2) (hx : x1 = x2) (hy : y1 = y2) :
    draw_watermark_on_image lib img1 s1 t1 x1 y1 =
      draw_watermark_on_image lib img2 s2 t2 x2 y2 := by
  subst hi; subst hs; subst ht; subst hx; subst hy; rfl

/-- Witness for C7: two runs on the same concrete input agree. -/
theorem claim_C7_witness :
    draw_watermark_on_image toyLib [3, 4] ⟨F32.finite 18, F32.finite 18⟩
        "Blue Bird" 10 10 =
      draw_watermark_on_image toyLib [3, 4] ⟨F32.finite 18, F32.finite 18⟩
        "Blue Bird" 10 10 :=
  claim_C7_pipeline_deterministic toyLib [3, 4] [3, 4] _ _ "Blue Bird" "Blue Bird"
    10 10 10 10 rfl rfl rfl rfl rfl

/-- C2 fails on the code: `"-1"` parses as a negative `f32` for `scale`,
yet the handler does not abort with a validation error — it proceeds to
the pipeline (here reaching the decode-error page for the empty file). -/
theorem claim_C2_counterexample :
    parseF32 "-1" = some (F32.finite (-1))
    ∧ watermark_handler toyLib [{ name := "scale", text := "-1" }] = .unsupported := by
  have hp : parseF32 "-1" = some (F32.finite (-1)) := by
    simp +decide [parseF32, parseDecimal, applyExponent, splitSign, digitsToNat,
      roundF32, F32_OVERFLOW, List.takeWhile, List.dropWhile]
    norm_num
  refine ⟨hp, ?_⟩
  simp +decide [watermark_handler, collectFields, collectFrom_cons, collectFrom,
    stepField, hp, draw_watermark_on_image, toyLib, initState]

/-- C2 amended: `posx` and `posy` are parsed as unsigned 32-bit integers,
so any negatively signed value for them aborts with the validation error
naming that field (for every image library, so no image processing
happens); `scale`, however, is parsed as `f32`, and a negative `scale`
value is accepted and stored, with processing continuing. -/
theorem claim_C2_nonnegative_only_for_positions (lib : ImageLib) (v w : String) :
    watermark_handler lib [{ name := "posx", text := "-" ++ v }] =
      .errorPage (invalidMsg .posx)
    ∧ watermark_handler lib [{ name := "posy", text := "-" ++ w }] =
      .errorPage (invalidMsg .posy)
    ∧ parseF32 "-1" = some (F32.finite (-1))
    ∧ collectFields [{ name := "scale", text := "-1" }] =
        .ok { initState with scale_num := F32.finite (-1) } := by
  have hp : parseF32 "-1" = some (F32.finite (-1)) := by
    simp +decide [parseF32, parseDecimal, applyExponent, splitSign, digitsToNat,
      roundF32, F32_OVERFLOW, List.takeWhile, List.dropWhile]
    norm_num
  refine ⟨?_, ?_, hp, ?_⟩ <;>
    simp +decide [watermark_handler, collectFields, collectFrom_cons, collectFrom,
      stepField, parseU32_neg, hp]

/-- C4 fails on the code: the font is parsed inside the request pipeline
(once per request whose image decodes), and a font-parse failure surfaces
as a per-request error page rather than preventing the process from
serving. -/
theorem claim_C4_counterexample :
    fontParsesPerRequest toyLib [{ name := "file", bytes := [3, 4] }] = 1
    ∧ watermark_handler toyLibNoFont [{ name := "file", bytes := [3, 4] }] =
        .unsupported :=
  ⟨rfl, rfl⟩

/-- C4 amended: the font bytes are embedded at compile time, but
`Font::try_from_bytes` runs inside `draw_watermark_on_image` on every
request whose image decodes (never at process start), and a font-parse
failure is surfaced as that request's error page. -/
theorem claim_C4_font_parsed_per_request (lib : ImageLib) (parts : List Part)
    (st : FormState) (img : Image)
    (h1 : collectFields parts = .ok st) (h2 : lib.decode st.bytes = .ok img) :
    fontParsesPerRequest lib parts = 1
    ∧ (lib.font_try_from_bytes font_data = none →
        watermark_handler lib parts = .unsupported) := by
  constructor
  · simp [fontParsesPerRequest, h1, h2]
  · intro h3
    simp [watermark_handler, h1, draw_watermark_on_image, h2, h3]

/-- Witness for the amended C4 on the instance whose font fails. -/
theorem claim_C4_witness :
    fontParsesPerRequest toyLibNoFont [{ name := "file", bytes := [3, 4] }] = 1
    ∧ watermark_handler toyLibNoFont [{ name := "file", bytes := [3, 4] }] =
        .unsupported :=
  ⟨(claim_C4_font_parsed_per_request toyLibNoFont [{ name := "file", bytes := [3, 4] }]
      { initState with bytes := [3, 4] }
      ⟨3, 4, fun _ _ => ⟨0, 0, 0, 255⟩⟩ rfl rfl).1,
   (claim_C4_font_parsed_per_request toyLibNoFont [{ name := "file", bytes := [3, 4] }]
      { initState with bytes := [3, 4] }
      ⟨3, 4, fun _ _ => ⟨0, 0, 0, 255⟩⟩ rfl rfl).2 rfl⟩

/-- C6: absent fields get defaults rather than failing — missing `text`
defaults to "Blue Bird", missing `posx`/`posy` to 0, missing `scale` to
the sentinel 18.0 — and a submission whose recognised numeric fields all
parse (vacuously so when they are absent) completes the loop. -/
theorem claim_C6_missing_fields_default (parts : List Part) :
    ((∀ p ∈ parts, partFailure p = none) → ∃ st, collectFields parts = .ok st)
    ∧ ∀ st, collectFields parts = .ok st →
        ((∀ p ∈ parts, p.name ≠ "text") → st.text = "Blue Bird")
        ∧ ((∀ p ∈ parts, p.name ≠ "posx") → st.posx = 0)
        ∧ ((∀ p ∈ parts, p.name ≠ "posy") → st.posy = 0)
        ∧ ((∀ p ∈ parts, p.name ≠ "scale") → st.scale_num = F32.finite 18) := by
  constructor
  · exact fun h => collectFrom_ok_of_no_fail parts initState h
  · intro st h
    have hp := collectFrom_preserve parts initState st h
    exact ⟨fun ha => hp.1 ha, fun ha => hp.2.1 ha, fun ha => hp.2.2.1 ha,
      fun ha => hp.2.2.2 ha⟩

/-- Witness for C6 at the fully empty submission. -/
theorem claim_C6_witness :
    (∃ st, collectFields [] = .ok st)
    ∧ initState.text = "Blue Bird" ∧ initState.posx = 0 ∧ initState.posy = 0
    ∧ initState.scale_num = F32.finite 18 :=
  ⟨(claim_C6_missing_fields_default []).1 (by simp),
   ((claim_C6_missing_fields_default []).2 initState rfl).1 (by simp),
   ((claim_C6_missing_fields_default []).2 initState rfl).2.1 (by simp),
   ((claim_C6_missing_fields_default []).2 initState rfl).2.2.1 (by simp),
   ((claim_C6_missing_fields_default []).2 initState rfl).2.2.2 (by simp)⟩

/-- C8: whatever state the multipart loop collects, the overlay call the
pipeline makes is exactly `draw_text_mut` with colour RGBA(0,0,0,0)
(fully transparent black), top-left anchor `(posx, posy)`, and a `Scale`
whose x and y factors are both the parsed `scale_num`; its output is what
gets JPEG-encoded into the success page. -/
theorem claim_C8_overlay_arguments (lib : ImageLib) (parts : List Part)
    (st : FormState) (img : Image) (font : FontT) (out : List Nat)
    (h1 : collectFields parts = .ok st)
    (h2 : lib.decode st.bytes = .ok img)
    (h3 : lib.font_try_from_bytes font_data = some font)
    (h4 : lib.writeJpeg (lib.draw_text_mut (Rgba.mk 0 0 0 0) st.posx st.posy
            (Scale.mk st.scale_num st.scale_num) font st.text img) = .ok out) :
    watermark_handler lib parts = .success (success_html (base64encode out)) := by
  simp [watermark_handler, h1, draw_watermark_on_image, h2, h3, h4]

/-- Witness for C8 on the concrete library instance. -/
theorem claim_C8_witness :
    watermark_handler toyLib [{ name := "file", bytes := [3, 4] }] =
      .success (success_html (base64encode [3, 4, 217])) :=
  claim_C8_overlay_arguments toyLib [{ name := "file", bytes := [3, 4] }]
    { initState with bytes := [3, 4] }
    ⟨3, 4, fun _ _ => ⟨0, 0, 0, 255⟩⟩ ⟨font_data⟩ [3, 4, 217] rfl rfl rfl rfl

/-- C9: the POST body is capped at 250 MiB; a request whose content
length exceeds the cap is rejected with the size-limit error regardless
of its body parts (so before any buffering of the body), and a request at
or under the cap is handed to the handler. -/
theorem claim_C9_content_length_cap (lib : ImageLib) (contentLength : Nat)
    (parts : List Part) :
    CONTENT_LENGTH_LIMIT = 250 * 1024 * 1024
    ∧ (CONTENT_LENGTH_LIMIT < contentLength →
        img_watermark_post lib contentLength parts = .payloadTooLarge
        ∧ ∀ parts2, img_watermark_post lib contentLength parts2 = .payloadTooLarge)
    ∧ (contentLength ≤ CONTENT_LENGTH_LIMIT →
        img_watermark_post lib contentLength parts =
          .handled (watermark_handler lib parts)) := by
  refine ⟨rfl, fun h => ⟨?_, fun parts2 => ?_⟩, fun h => ?_⟩
  · simp [img_watermark_post, h]
  · simp [img_watermark_post, h]
  · simp [img_watermark_post, Nat.not_lt.mpr h]

/-- Witness for C9 just above and at the bottom of the cap. -/
theorem claim_C9_witness :
    img_watermark_post toyLib (CONTENT_LENGTH_LIMIT + 1) [] = .payloadTooLarge
    ∧ img_watermark_post toyLib 0 [] = .handled (watermark_handler toyLib []) :=
  ⟨((claim_C9_content_length_cap toyLib (CONTENT_LENGTH_LIMIT + 1) []).2.1
      (Nat.lt_succ_self _)).1,
   (claim_C9_content_length_cap toyLib 0 []).2.2 (Nat.zero_le _)⟩

/-- C10 fails on the code: `scale` is parsed as a 32-bit float, not a
64-bit one.  At `"1e39"` the source's parse overflows to `+∞` (and that
is what the handler stores), whereas a 64-bit parse of the same string
yields the finite value `10^39`. -/
theorem claim_C10_counterexample :
    parseF32 "1e39" = some (F32.inf false)
    ∧ parseF64spec "1e39" = some (F32.finite (10 ^ 39))
    ∧ collectFields [{ name := "scale", text := "1e39" }] =
        .ok { initState with scale_num := F32.inf false } := by
  have h32 : parseF32 "1e39" = some (F32.inf false) := by
    simp +decide [parseF32, parseDecimal, applyExponent, splitSign, digitsToNat,
      roundF32, F32_OVERFLOW, List.takeWhile, List.dropWhile]
    norm_num
  refine ⟨h32, ?_, ?_⟩
  · simp +decide [parseF64spec, parseDecimal, applyExponent, splitSign, digitsToNat,
      List.takeWhile, List.dropWhile]
    norm_num
  · simp +decide [collectFields, collectFrom_cons, collectFrom, stepField, h32]

/-- C10 amended: `posx`/`posy` are parsed as unsigned 32-bit integers —
any value failing that parse (negative, fractional, or above 4294967295)
yields the validation error naming the field; `scale` is parsed as a
32-bit float, so fractional, negative, infinite and NaN values are all
accepted and stored (with decimals beyond `f32` range becoming `∞`). -/
theorem claim_C10_u32_positions_f32_scale :
    (∀ v : String, parseU32 v = none →
      collectFields [{ name := "posx", text := v }] = .error .posx)
    ∧ (∀ v : String, parseU32 v = none →
      collectFields [{ name := "posy", text := v }] = .error .posy)
    ∧ parseU32 "-1" = none ∧ parseU32 "2.5" = none ∧ parseU32 "4294967296" = none
    ∧ (∀ (v : String) (x : F32), parseF32 v = some x →
      collectFields [{ name := "scale", text := v }] =
        .ok { initState with scale_num := x })
    ∧ parseF32 "2.5" = some (F32.finite (5 / 2))
    ∧ parseF32 "-3" = some (F32.finite (-3))
    ∧ parseF32 "inf" = some (F32.inf false)
    ∧ parseF32 "NaN" = some F32.nan
    ∧ parseF32 "1e39" = some (F32.inf false) := by
  refine ⟨fun v hv => ?_, fun v hv => ?_, by decide, by decide, by decide,
    fun v x hv => ?_, ?_, ?_, ?_, ?_, ?_⟩
  · simp +decide [collectFields, collectFrom_cons, collectFrom, stepField, hv]
  · simp +decide [collectFields, collectFrom_cons, collectFrom, stepField, hv]
  · simp +decide [collectFields, collectFrom_cons, collectFrom, stepField, hv]
  all_goals
    simp +decide [parseF32, parseDecimal, applyExponent, splitSign, digitsToNat,
      roundF32, F32_OVERFLOW, List.takeWhile, List.dropWhile]
  all_goals norm_num

/-- Witness for the amended C10: a failing `posx` and an accepted NaN
`scale` on concrete inputs. -/
theorem claim_C10_witness :
    collectFields [{ name := "posx", text := "abc" }] = .error .posx
    ∧ collectFields [{ name := "scale", text := "NaN" }] =
        .ok { initState with scale_num := F32.nan } := by
  obtain ⟨h1, _, _, _, _, h6, _, _, _, h10, _⟩ := claim_C10_u32_positions_f32_scale
  exact ⟨h1 "abc" (by decide), h6 "NaN" F32.nan h10⟩

end ImgProc
